import Mathlib

/-!
Verification of the prediction-market arbitrage pipeline
(`models.py`, `filters.py`, `arb_math.py`, `llm_client.py`,
`kalshi_api.py`, `polymarket_api.py`, `pipeline.py`).

Modelling conventions:
* Python `float` prices and confidences are embedded as `ℚ` (the code only
  divides by 100, subtracts from 1, takes absolute differences and compares,
  all exact in `ℚ`).
* Timezone-aware `datetime` values are embedded as `Int` epoch timestamps, and
  `timedelta` as an `Int` number of the same time units; `abs (a - b)` mirrors
  `abs(dt1 - dt2)` on datetimes.
* Functions that can `raise` are embedded as `Except String _`, the carried
  string being the exception message.
* The ISO-8601 text parser inside `datetime.fromisoformat` is not re-derived;
  a raw datetime value is embedded as a constructor telling which of the
  branch of the source it takes (numeric timestamp, parseable string, string
  raising `ValueError`, `None`, unsupported type), each carrying the data the
  branch produces.
-/

/-- Mirrors `models.Market` (`models.py`).  `platform` is the `Platform`
literal, prices are the `float` fields, `resolution_time` the datetime. -/
structure Market where
  platform : String
  market_id : String
  question : String
  resolution_time : Int
  yes_price : ℚ
  no_price : ℚ
  settlement_description : Option String := none
  underlying_entity : Option String := none
  is_binary : Bool := true
  is_active : Bool := true
deriving Repr, DecidableEq

/-- Mirrors `models.MarketPair`. -/
structure MarketPair where
  kalshi_market : Market
  polymarket_market : Market
deriving Repr, DecidableEq

/-- Mirrors `models.LLMSemanticMatch`. -/
structure LLMSemanticMatch where
  same_event : Bool
  same_outcome_semantics : Bool
  confidence : ℚ
  risks : List String
deriving Repr, DecidableEq

/-- Mirrors `models.ValidatedMatch`. -/
structure ValidatedMatch where
  pair : MarketPair
  llm_match : LLMSemanticMatch
  validation_passed : Bool
  validation_issues : List String
deriving Repr, DecidableEq

/-- Mirrors `models.ArbitrageOpportunity`. -/
structure ArbitrageOpportunity where
  pair : MarketPair
  edge_bps : ℚ
  description : String
  risks : List String
deriving Repr, DecidableEq

/-- Python `str.lower()` on the basic latin range, written directly on the
character list so that it reduces on literals (`String.toLower` itself is
defined by well-founded recursion over byte positions and does not). -/
def pyLower (s : String) : String := String.mk (s.data.map Char.toLower)

/-- Python truthiness-based `or` on two optional strings
(`d.get("a") or d.get("b")`): `None` and the empty string are falsy. -/
def pyOrStr (a b : Option String) : Option String :=
  match a with
  | some s => if s = "" then b else some s
  | none => b

/-- The keep-condition of the inner loop of `filters.prefilter_markets`:
the two `continue` statements, negated.  A pair is kept iff the resolution
times differ by at most `max_resolution_delta` and, when both markets carry a
truthy (non-`None`, non-empty) `underlying_entity`, the entities agree after
`.lower()`. -/
def prefilterKeep (k p : Market) (max_resolution_delta : Int) : Bool :=
  if |k.resolution_time - p.resolution_time| > max_resolution_delta then false
  else
    match k.underlying_entity, p.underlying_entity with
    | some ke, some pe =>
        if ke ≠ "" ∧ pe ≠ "" then pyLower ke == pyLower pe else true
    | _, _ => true

/-- Mirrors `filters.prefilter_markets`: filter each side to
`is_binary and is_active`, then a nested loop (venue-A outer, venue-B inner)
appending a `MarketPair` for every kept combination.  The nested
append-to-accumulator loop is embedded as nested `foldl`s. -/
def prefilter_markets (kalshi_markets polymarket_markets : List Market)
    (max_resolution_delta : Int) : List MarketPair :=
  let kalshi_filtered := kalshi_markets.filter (fun m => m.is_binary && m.is_active)
  let poly_filtered := polymarket_markets.filter (fun m => m.is_binary && m.is_active)
  kalshi_filtered.foldl
    (fun pairs k =>
      poly_filtered.foldl
        (fun pairs p =>
          if prefilterKeep k p max_resolution_delta then
            pairs ++ [MarketPair.mk k p]
          else pairs)
        pairs)
    []

lemma foldl_filter_map_append {α β : Type} (c : α → Bool) (g : α → β) :
    ∀ (l : List α) (acc : List β),
      l.foldl (fun a x => if c x then a ++ [g x] else a) acc
        = acc ++ (l.filter c).map g := by
  intro l
  induction l with
  | nil => intro acc; simp
  | cons x xs ih =>
      intro acc
      by_cases hx : c x = true
      · simp [List.foldl_cons, hx, ih]
      · simp [List.foldl_cons, hx, ih]

lemma foldl_flatMap_append {α β : Type} (f : α → List β) :
    ∀ (l : List α) (acc : List β),
      l.foldl (fun a x => a ++ f x) acc = acc ++ l.flatMap f := by
  intro l
  induction l with
  | nil => intro acc; simp
  | cons x xs ih => intro acc; simp [List.foldl_cons, ih]

/-- The function `prefilter_markets` written as the cross-join comprehension the spec
describes: outer loop over active binary venue-A markets, inner loop over
active binary venue-B markets, keeping exactly the pairs `prefilterKeep`
accepts, in encounter order. -/
lemma prefilter_markets_eq_flatMap (ks ps : List Market) (d : Int) :
    prefilter_markets ks ps d
      = (ks.filter (fun m => m.is_binary && m.is_active)).flatMap (fun k =>
          ((ps.filter (fun m => m.is_binary && m.is_active)).filter
              (fun p => prefilterKeep k p d)).map
            (fun p => MarketPair.mk k p)) := by
  unfold prefilter_markets
  have hinner :
      ∀ (k : Market) (acc : List MarketPair),
        (ps.filter (fun m => m.is_binary && m.is_active)).foldl
            (fun pairs p =>
              if prefilterKeep k p d then pairs ++ [MarketPair.mk k p] else pairs)
            acc
          = acc ++ ((ps.filter (fun m => m.is_binary && m.is_active)).filter
                (fun p => prefilterKeep k p d)).map (fun p => MarketPair.mk k p) := by
    intro k acc
    exact foldl_filter_map_append (fun p => prefilterKeep k p d)
      (fun p => MarketPair.mk k p) _ acc
  calc
    (ks.filter (fun m => m.is_binary && m.is_active)).foldl
        (fun pairs k =>
          (ps.filter (fun m => m.is_binary && m.is_active)).foldl
            (fun pairs p =>
              if prefilterKeep k p d then pairs ++ [MarketPair.mk k p] else pairs)
            pairs)
        []
      = (ks.filter (fun m => m.is_binary && m.is_active)).foldl
          (fun pairs k =>
            pairs ++ ((ps.filter (fun m => m.is_binary && m.is_active)).filter
                (fun p => prefilterKeep k p d)).map (fun p => MarketPair.mk k p))
          [] := by
        congr 1
        funext pairs k
        exact hinner k pairs
    _ = _ := by
        rw [foldl_flatMap_append]
        simp

/-- Claim C3: `prefilter_markets` emits exactly the pairs of the cross-join of
binary-and-active markets whose resolution times differ by at most
`max_resolution_delta` and whose underlying entities (when both truthy) agree
case-insensitively; pairs appear in encounter order (venue-A outer loop,
venue-B inner loop), and each (A, B) index combination is visited — hence
emitted — at most once.  Stated as: the loop equals the order-preserving
cross-join comprehension, and membership holds exactly for pairs of input
markets satisfying all the filter conditions. -/
theorem prefilter_markets_spec (ks ps : List Market) (d : Int) :
    (prefilter_markets ks ps d
        = (ks.filter (fun m => m.is_binary && m.is_active)).flatMap (fun k =>
            ((ps.filter (fun m => m.is_binary && m.is_active)).filter
                (fun p => prefilterKeep k p d)).map
              (fun p => MarketPair.mk k p)))
    ∧ (∀ pr : MarketPair, pr ∈ prefilter_markets ks ps d ↔
        pr.kalshi_market ∈ ks ∧ pr.polymarket_market ∈ ps
        ∧ pr.kalshi_market.is_binary = true ∧ pr.kalshi_market.is_active = true
        ∧ pr.polymarket_market.is_binary = true
        ∧ pr.polymarket_market.is_active = true
        ∧ prefilterKeep pr.kalshi_market pr.polymarket_market d = true) := by
  refine ⟨prefilter_markets_eq_flatMap ks ps d, ?_⟩
  intro pr
  rw [prefilter_markets_eq_flatMap]
  constructor
  · intro h
    simp only [List.mem_flatMap, List.mem_map, List.mem_filter] at h
    obtain ⟨k, ⟨hk, hkba⟩, p, ⟨⟨hp, hpba⟩, hkeep⟩, hpr⟩ := h
    subst hpr
    simp only [Bool.and_eq_true] at hkba hpba
    exact ⟨hk, hp, hkba.1, hkba.2, hpba.1, hpba.2, hkeep⟩
  · rintro ⟨hk, hp, h1, h2, h3, h4, hkeep⟩
    simp only [List.mem_flatMap, List.mem_map, List.mem_filter]
    exact ⟨pr.kalshi_market, ⟨hk, by simp [h1, h2]⟩,
      pr.polymarket_market, ⟨⟨hp, by simp [h3, h4]⟩, hkeep⟩, rfl⟩

/-- The issue string appended by the resolution-window check of
`filters.validate_matches`. -/
def resolutionIssue : String := "Resolution times differ beyond allowed threshold."

/-- The issue string appended by the semantic-confirmation check of
`filters.validate_matches`. -/
def llmIssue : String := "LLM did not confirm same event/outcome semantics."

/-- The per-pair body of the loop in `filters.validate_matches`: start from
`issues = []`, `passed = True`, run the two sequential checks, each appending
its issue string and setting `passed = False` when it fires, then build the
`ValidatedMatch`. -/
def validateOne (max_resolution_delta : Int)
    (pair : MarketPair) (llm_match : LLMSemanticMatch) : ValidatedMatch :=
  let issues0 : List String := []
  let passed0 : Bool := true
  let step1 : List String × Bool :=
    if |pair.kalshi_market.resolution_time - pair.polymarket_market.resolution_time|
        > max_resolution_delta then
      (issues0 ++ [resolutionIssue], false)
    else (issues0, passed0)
  let step2 : List String × Bool :=
    if !(llm_match.same_event && llm_match.same_outcome_semantics) then
      (step1.1 ++ [llmIssue], false)
    else step1
  { pair := pair, llm_match := llm_match,
    validation_passed := step2.2, validation_issues := step2.1 }

/-- Mirrors `filters.validate_matches`: `zip(pairs, llm_results)` (truncating
to the shorter list, as Python `zip` does) and one `ValidatedMatch` appended
per zipped element. -/
def validate_matches (pairs : List MarketPair) (llm_results : List LLMSemanticMatch)
    (max_resolution_delta : Int) : List ValidatedMatch :=
  (pairs.zip llm_results).foldl
    (fun validated pl => validated ++ [validateOne max_resolution_delta pl.1 pl.2])
    []

lemma foldl_map_append {α β : Type} (g : α → β) :
    ∀ (l : List α) (acc : List β),
      l.foldl (fun a x => a ++ [g x]) acc = acc ++ l.map g := by
  intro l
  induction l with
  | nil => intro acc; simp
  | cons x xs ih => intro acc; simp [List.foldl_cons, ih]

lemma validate_matches_eq_map (pairs : List MarketPair)
    (llm_results : List LLMSemanticMatch) (d : Int) :
    validate_matches pairs llm_results d
      = (pairs.zip llm_results).map (fun pl => validateOne d pl.1 pl.2) := by
  unfold validate_matches
  rw [foldl_map_append]
  simp

/-- Compact constructor for concrete `Market` values used in witnesses and
counterexamples; defaulted fields are the dataclass defaults of
`models.Market`. -/
def mkMarket (pf i q : String) (rt : Int) (yp np : ℚ) : Market :=
  { platform := pf, market_id := i, question := q, resolution_time := rt,
    yes_price := yp, no_price := np }

lemma validateOne_passed_issues (d : Int) (pair : MarketPair)
    (llm : LLMSemanticMatch) :
    validateOne d pair llm
      = { pair := pair, llm_match := llm,
          validation_passed :=
            decide (|pair.kalshi_market.resolution_time
                - pair.polymarket_market.resolution_time| ≤ d)
            && llm.same_event && llm.same_outcome_semantics,
          validation_issues :=
            (if |pair.kalshi_market.resolution_time
                  - pair.polymarket_market.resolution_time| > d
              then [resolutionIssue] else [])
            ++ (if llm.same_event && llm.same_outcome_semantics
                then [] else [llmIssue]) } := by
  unfold validateOne
  by_cases hd : |pair.kalshi_market.resolution_time
      - pair.polymarket_market.resolution_time| ≤ d
  · have hd2 : ¬ (|pair.kalshi_market.resolution_time
        - pair.polymarket_market.resolution_time| > d) := not_lt.mpr hd
    cases hse : llm.same_event <;> cases hsos : llm.same_outcome_semantics <;>
      simp [hd, hd2, hse, hsos]
  · have hd2 : |pair.kalshi_market.resolution_time
        - pair.polymarket_market.resolution_time| > d := not_le.mp hd
    cases hse : llm.same_event <;> cases hsos : llm.same_outcome_semantics <;>
      simp [hd, hd2, hse, hsos]

/-- Claim C4: for every pair and matcher result consumed at the same index,
`validation_passed` is true iff the recomputed resolution-time difference is
within the bound AND `same_event` AND `same_outcome_semantics`; each failing
condition appends its human-readable issue string (resolution issue first);
and passed/issues are independent of the matcher `confidence` value. -/
theorem validate_matches_passed_iff (pairs : List MarketPair)
    (llm_results : List LLMSemanticMatch) (d : Int) :
    (validate_matches pairs llm_results d
        = (pairs.zip llm_results).map (fun pl =>
            { pair := pl.1, llm_match := pl.2,
              validation_passed :=
                decide (|pl.1.kalshi_market.resolution_time
                    - pl.1.polymarket_market.resolution_time| ≤ d)
                && pl.2.same_event && pl.2.same_outcome_semantics,
              validation_issues :=
                (if |pl.1.kalshi_market.resolution_time
                      - pl.1.polymarket_market.resolution_time| > d
                  then [resolutionIssue] else [])
                ++ (if pl.2.same_event && pl.2.same_outcome_semantics
                    then [] else [llmIssue]) }))
    ∧ (∀ c : ℚ,
        (validate_matches pairs
            (llm_results.map (fun r => { r with confidence := c })) d).map
            (fun v => (v.validation_passed, v.validation_issues))
          = (validate_matches pairs llm_results d).map
              (fun v => (v.validation_passed, v.validation_issues))) := by
  constructor
  · rw [validate_matches_eq_map]
    apply List.map_congr_left
    intro pl _
    exact validateOne_passed_issues d pl.1 pl.2
  · intro c
    rw [validate_matches_eq_map, validate_matches_eq_map, List.zip_map_right]
    rw [List.map_map, List.map_map, List.map_map]
    apply List.map_congr_left
    rintro ⟨pair, llm⟩ _
    simp only [Function.comp_apply, Prod.map_apply, id_eq]
    rw [validateOne_passed_issues, validateOne_passed_issues]

/-- Claim C10: `validate_matches` is total on lists of any (possibly unequal)
lengths, returns exactly `min` of the two lengths, and pairs inputs by index
(the i-th output is built from `pairs[i]` and `llm_results[i]`), ignoring the
excess elements of the longer list. -/
theorem validate_matches_length (pairs : List MarketPair)
    (llm_results : List LLMSemanticMatch) (d : Int) :
    (validate_matches pairs llm_results d).length
        = min pairs.length llm_results.length
    ∧ (∀ i, i < pairs.length → i < llm_results.length →
        ∀ (h1 : i < pairs.length) (h2 : i < llm_results.length),
        (validate_matches pairs llm_results d)[i]?
          = some (validateOne d (pairs.get ⟨i, h1⟩) (llm_results.get ⟨i, h2⟩))) := by
  constructor
  · rw [validate_matches_eq_map]; simp
  · intro i _ _ h1 h2
    have hz : i < (pairs.zip llm_results).length := by
      rw [List.length_zip]; omega
    rw [validate_matches_eq_map]
    rw [List.getElem?_eq_getElem (by simpa using hz)]
    congr 1
    rw [List.getElem_map, List.getElem_zip]
    simp

/-- Witness for C10 at concrete unequal-length inputs: two pairs but only one
matcher result — the output has `min 2 1 = 1` entry, built from the inputs at
index 0. -/
theorem validate_matches_length_witness :
    (validate_matches
        [MarketPair.mk (mkMarket "kalshi" "k1" "q1" 0 (1/2) (1/2))
            (mkMarket "polymarket" "p1" "q2" 0 (1/2) (1/2)),
          MarketPair.mk (mkMarket "kalshi" "k2" "q3" 5 (1/4) (3/4))
            (mkMarket "polymarket" "p2" "q4" 5 (1/4) (3/4))]
        [{ same_event := true, same_outcome_semantics := true,
           confidence := 1, risks := [] }]
        10).length = min 2 1
    ∧ (validate_matches
        [MarketPair.mk (mkMarket "kalshi" "k1" "q1" 0 (1/2) (1/2))
            (mkMarket "polymarket" "p1" "q2" 0 (1/2) (1/2)),
          MarketPair.mk (mkMarket "kalshi" "k2" "q3" 5 (1/4) (3/4))
            (mkMarket "polymarket" "p2" "q4" 5 (1/4) (3/4))]
        [{ same_event := true, same_outcome_semantics := true,
           confidence := 1, risks := [] }]
        10)[0]?
      = some (validateOne 10
          (MarketPair.mk (mkMarket "kalshi" "k1" "q1" 0 (1/2) (1/2))
            (mkMarket "polymarket" "p1" "q2" 0 (1/2) (1/2)))
          { same_event := true, same_outcome_semantics := true,
            confidence := 1, risks := [] }) := by
  refine ⟨(validate_matches_length _ _ _).1, ?_⟩
  have h := (validate_matches_length
    [MarketPair.mk (mkMarket "kalshi" "k1" "q1" 0 (1/2) (1/2))
        (mkMarket "polymarket" "p1" "q2" 0 (1/2) (1/2)),
      MarketPair.mk (mkMarket "kalshi" "k2" "q3" 5 (1/4) (3/4))
        (mkMarket "polymarket" "p2" "q4" 5 (1/4) (3/4))]
    [{ same_event := true, same_outcome_semantics := true,
       confidence := 1, risks := [] }]
    10).2 0 (by decide) (by decide) (by decide) (by decide)
  simpa using h

/-- The f-string template built in `arb_math.compute_arbitrage_opportunities`
(single quotes written with an escape). -/
def opportunityDescription (k p : Market) : String :=
  "Detected price discrepancy between Kalshi and Polymarket for markets \x27"
    ++ k.question ++ "\x27 and \x27" ++ p.question
    ++ "\x27. This is an informational signal only; no trading logic is implemented."

/-- The `ArbitrageOpportunity` built by the loop body of
`arb_math.compute_arbitrage_opportunities` for an emitted match. -/
def mkOpportunity (m : ValidatedMatch) : ArbitrageOpportunity :=
  { pair := m.pair,
    edge_bps :=
      |m.pair.kalshi_market.yes_price - m.pair.polymarket_market.yes_price|
        * 10000,
    description :=
      opportunityDescription m.pair.kalshi_market m.pair.polymarket_market,
    risks := m.llm_match.risks ++ m.validation_issues }

/-- Mirrors `arb_math.compute_arbitrage_opportunities`: skip matches with
`validation_passed` false, compute `edge_bps = abs(yes_k - yes_p) * 10000`,
skip when `edge_bps < min_edge_bps`, else append the opportunity. -/
def compute_arbitrage_opportunities (validated_matches : List ValidatedMatch)
    (min_edge_bps : ℚ) : List ArbitrageOpportunity :=
  validated_matches.foldl
    (fun opportunities m =>
      if !m.validation_passed then opportunities
      else
        let edge := |m.pair.kalshi_market.yes_price
          - m.pair.polymarket_market.yes_price|
        let edge_bps := edge * 10000
        if edge_bps < min_edge_bps then opportunities
        else opportunities ++ [mkOpportunity m])
    []

lemma compute_eq_filter_map
    (validated_matches : List ValidatedMatch) (min_edge_bps : ℚ) :
    compute_arbitrage_opportunities validated_matches min_edge_bps
      = ((validated_matches.filter (fun m =>
            m.validation_passed
              && decide (min_edge_bps ≤
                  |m.pair.kalshi_market.yes_price
                    - m.pair.polymarket_market.yes_price| * 10000))).map
          mkOpportunity) := by
  unfold compute_arbitrage_opportunities
  have hfun :
        (fun (opportunities : List ArbitrageOpportunity) (m : ValidatedMatch) =>
          if !m.validation_passed then opportunities
          else
            let edge := |m.pair.kalshi_market.yes_price
              - m.pair.polymarket_market.yes_price|
            let edge_bps := edge * 10000
            if edge_bps < min_edge_bps then opportunities
            else opportunities ++ [mkOpportunity m])
        = (fun opportunities m =>
            if (m.validation_passed
                && decide (min_edge_bps ≤
                    |m.pair.kalshi_market.yes_price
                      - m.pair.polymarket_market.yes_price| * 10000)) then
              opportunities ++ [mkOpportunity m]
            else opportunities) := by
      funext opportunities m
      by_cases hp : m.validation_passed = true
      · by_cases he : |m.pair.kalshi_market.yes_price
            - m.pair.polymarket_market.yes_price| * 10000 < min_edge_bps
        · simp [hp, he, not_le.mpr he]
        · simp [hp, he, not_lt.mp he]
      · simp [hp]
  rw [hfun]
  exact foldl_filter_map_append _ mkOpportunity validated_matches []

/-- Claim C5: an `ArbitrageOpportunity` is emitted for a match iff
`validation_passed` is true and
`|yes_k - yes_p| * 10000 >= min_edge_bps`; the emitted `edge_bps` equals
`|yes_k - yes_p| * 10000`, and the emitted `risks` list is the matcher risks
followed by the validator issues, in their original order (this is the
`risks` field of `mkOpportunity`); output preserves input order. -/
theorem compute_arbitrage_opportunities_spec
    (validated_matches : List ValidatedMatch) (min_edge_bps : ℚ) :
    compute_arbitrage_opportunities validated_matches min_edge_bps
      = ((validated_matches.filter (fun m =>
            m.validation_passed
              && decide (min_edge_bps ≤
                  |m.pair.kalshi_market.yes_price
                    - m.pair.polymarket_market.yes_price| * 10000))).map
          mkOpportunity)
    ∧ (∀ m : ValidatedMatch,
        mkOpportunity m
          = { pair := m.pair,
              edge_bps := |m.pair.kalshi_market.yes_price
                - m.pair.polymarket_market.yes_price| * 10000,
              description := opportunityDescription m.pair.kalshi_market
                m.pair.polymarket_market,
              risks := m.llm_match.risks ++ m.validation_issues }) :=
  ⟨compute_eq_filter_map validated_matches min_edge_bps, fun _ => rfl⟩

/-- The constant result `llm_client.DummyLLMClient.evaluate_pairs` builds for
every pair. -/
def dummyMatch : LLMSemanticMatch :=
  { same_event := false, same_outcome_semantics := false, confidence := 0,
    risks := ["LLM not implemented; this is a dummy result."] }

/-- The input/output boundary of `llm_client.LLMClient.evaluate_pairs`: a
matcher is any function of this type.  Note the input element type is
`MarketPair`, whose `Market` components carry `yes_price` and `no_price`. -/
def MatcherFun : Type := List MarketPair → List LLMSemanticMatch

/-- Mirrors `llm_client.DummyLLMClient.evaluate_pairs`: one `dummyMatch` per
input pair, the pair itself unread. -/
def dummy_evaluate_pairs : MatcherFun :=
  fun pairs => pairs.map (fun _ => dummyMatch)

/-- All the non-price fields of a `Market`, used to state that two inputs
differ only in `yes_price` / `no_price`. -/
def stripPrices (m : Market) :
    String × String × String × Int × Option String × Option String
      × Bool × Bool :=
  (m.platform, m.market_id, m.question, m.resolution_time,
    m.settlement_description, m.underlying_entity, m.is_binary, m.is_active)

/-- Non-price fields of both sides of a `MarketPair`. -/
def stripPairPrices (pr : MarketPair) :=
  (stripPrices pr.kalshi_market, stripPrices pr.polymarket_market)

/-- A matcher that is well-typed against the `evaluate_pairs` boundary yet
reads `yes_price`: possible precisely because `MarketPair` exposes the price
fields to the matcher. -/
def priceReadingMatcher : MatcherFun :=
  fun pairs => pairs.map (fun pr =>
    { same_event := decide ((1 : ℚ)/2 < pr.kalshi_market.yes_price),
      same_outcome_semantics := true, confidence := 1, risks := [] })

/-- Counterexample for claim C7: the claim says the matcher input
representation excludes the price fields at the type boundary, equivalently
that every conforming matcher gives identical output on inputs differing only
in prices.  False: `priceReadingMatcher` has exactly the boundary type
`List MarketPair → List LLMSemanticMatch` of `evaluate_pairs`, and on two
concrete one-pair inputs that agree on every non-price field (first conjunct)
it returns different outputs (second conjunct). -/
theorem matcher_sees_prices_counterexample :
    ([MarketPair.mk (mkMarket "kalshi" "k" "q" 0 (1/4) (3/4))
        (mkMarket "polymarket" "p" "q2" 0 (1/4) (3/4))].map stripPairPrices
      = [MarketPair.mk (mkMarket "kalshi" "k" "q" 0 (3/4) (1/4))
          (mkMarket "polymarket" "p" "q2" 0 (1/4) (3/4))].map stripPairPrices)
    ∧ priceReadingMatcher
        [MarketPair.mk (mkMarket "kalshi" "k" "q" 0 (1/4) (3/4))
          (mkMarket "polymarket" "p" "q2" 0 (1/4) (3/4))]
      ≠ priceReadingMatcher
          [MarketPair.mk (mkMarket "kalshi" "k" "q" 0 (3/4) (1/4))
            (mkMarket "polymarket" "p" "q2" 0 (1/4) (3/4))] := by
  constructor
  · rfl
  · intro h
    simp only [priceReadingMatcher, List.map_cons, List.map_nil] at h
    have h2 := List.head_eq_of_cons_eq h
    have h3 := congrArg LLMSemanticMatch.same_event h2
    simp only [mkMarket] at h3
    norm_num at h3

/-- Claim C7 amended: the `evaluate_pairs` type boundary does NOT exclude
prices (see the counterexample), so price-blindness is a per-implementation
convention; the shipped `DummyLLMClient` satisfies it: on any two input lists
that differ only in price fields its output is identical. -/
theorem dummy_evaluate_pairs_price_blind (l1 l2 : List MarketPair)
    (h : l1.map stripPairPrices = l2.map stripPairPrices) :
    dummy_evaluate_pairs l1 = dummy_evaluate_pairs l2 := by
  have hlen : l1.length = l2.length := by
    have := congrArg List.length h
    simpa using this
  unfold dummy_evaluate_pairs
  rw [List.map_const', List.map_const', hlen]

/-- Witness for the amended C7 at concrete inputs differing only in
`yes_price`. -/
theorem dummy_evaluate_pairs_price_blind_witness :
    dummy_evaluate_pairs
        [MarketPair.mk (mkMarket "kalshi" "ka" "qa" 7 (2/5) (3/5))
          (mkMarket "polymarket" "pa" "qb" 7 (2/5) (3/5))]
      = dummy_evaluate_pairs
          [MarketPair.mk (mkMarket "kalshi" "ka" "qa" 7 (11/20) (9/20))
            (mkMarket "polymarket" "pa" "qb" 7 (2/5) (3/5))] :=
  dummy_evaluate_pairs_price_blind _ _ rfl

/-- Mirrors the post-fetch body of `pipeline.run_pipeline`, parametrized by
the two market lists a pair of succeeding venue fetches returns and by the
configured thresholds (`config.ArbitrageThresholds`); the matcher is the
`DummyLLMClient` the orchestrator always constructs. -/
def run_pipeline_core (kalshi_markets polymarket_markets : List Market)
    (max_resolution_delta : Int) (min_edge_bps : ℚ) :
    List ArbitrageOpportunity :=
  let candidate_pairs :=
    prefilter_markets kalshi_markets polymarket_markets max_resolution_delta
  let llm_results := dummy_evaluate_pairs candidate_pairs
  let validated :=
    validate_matches candidate_pairs llm_results max_resolution_delta
  compute_arbitrage_opportunities validated min_edge_bps

lemma validate_with_dummy_never_passes (pairs : List MarketPair) (d : Int) :
    ∀ v ∈ validate_matches pairs (dummy_evaluate_pairs pairs) d,
      v.validation_passed = false := by
  intro v hv
  rw [validate_matches_eq_map] at hv
  rw [List.mem_map] at hv
  obtain ⟨pl, hpl, hv⟩ := hv
  have h2 : pl.2 = dummyMatch := by
    have := (List.of_mem_zip hpl).2
    unfold dummy_evaluate_pairs at this
    rw [List.mem_map] at this
    obtain ⟨_, _, h⟩ := this
    exact h.symm
  subst hv
  rw [validateOne_passed_issues]
  simp [h2, dummyMatch]

/-- Claim C9: the orchestrator always constructs `DummyLLMClient`, whose
`evaluate_pairs` returns `same_event := false` and
`same_outcome_semantics := false` for every pair, so every run of
`run_pipeline` in which both venue fetches succeed returns the empty list —
no `ArbitrageOpportunity` is ever emitted — regardless of the fetched market
data, prices, or configured thresholds. -/
theorem run_pipeline_core_empty (kalshi_markets polymarket_markets : List Market)
    (max_resolution_delta : Int) (min_edge_bps : ℚ) :
    run_pipeline_core kalshi_markets polymarket_markets
      max_resolution_delta min_edge_bps = [] := by
  unfold run_pipeline_core
  rw [compute_eq_filter_map]
  have hnil :
      (validate_matches
          (prefilter_markets kalshi_markets polymarket_markets
            max_resolution_delta)
          (dummy_evaluate_pairs
            (prefilter_markets kalshi_markets polymarket_markets
              max_resolution_delta))
          max_resolution_delta).filter
        (fun m => m.validation_passed
          && decide (min_edge_bps ≤
              |m.pair.kalshi_market.yes_price
                - m.pair.polymarket_market.yes_price| * 10000)) = [] := by
    rw [List.filter_eq_nil_iff]
    intro v hv
    have := validate_with_dummy_never_passes _ max_resolution_delta v hv
    simp [this]
  rw [hnil]
  rfl

/-- A raw price-like JSON value as consumed by `_normalize_price`: `None`, a
value `float()` converts (number, numeric string or bool, carried as the
resulting rational), or a value `float()` rejects with
`TypeError`/`ValueError`. -/
inductive RawPrice where
  | null
  | num (q : ℚ)
  | uncastable
deriving Repr, DecidableEq

/-- Mirrors `kalshi_api._normalize_price` (`polymarket_api._normalize_price`
is identical): `None` and uncastable values give `None`; otherwise values
`> 1` are treated as percentage-scaled and divided by 100. -/
def normalize_price : RawPrice → Option ℚ
  | .null => none
  | .uncastable => none
  | .num q => some (if q > 1 then q / 100 else q)

/-- Mirrors `kalshi_api._extract_prices`, applied to the raw values the
`or`-chains over the yes-price keys and the no-price keys selected: normalize
each leg, then synthesize a missing leg as `1 -` the other. -/
def extract_prices (yes_raw no_raw : RawPrice) : Option ℚ × Option ℚ :=
  let yes_price := normalize_price yes_raw
  let no_price := normalize_price no_raw
  match yes_price, no_price with
  | none, some n => (some (1 - n), some n)
  | some y, none => (some y, some (1 - y))
  | y, n => (y, n)

/-- A raw close/end-time JSON value, by the branch `_parse_datetime` takes:
`None`; an `int`/`float` epoch timestamp; a string `datetime.fromisoformat`
parses (carrying the parsed instant — the ISO-8601 text parser itself is not
re-derived); a string it rejects with `ValueError`; or a value of another
type. -/
inductive RawDatetime where
  | null
  | numTs (t : Int)
  | strParseable (t : Int)
  | strUnparseable (s : String)
  | otherType
deriving Repr, DecidableEq

/-- Mirrors `kalshi_api._parse_datetime`: numbers and parseable strings give
a timezone-aware datetime; `None`, unparseable strings and other types raise
`KalshiAPIError`. -/
def kalshi_parse_datetime : RawDatetime → Except String Int
  | .null => .error "Kalshi market missing close time"
  | .numTs t => .ok t
  | .strParseable t => .ok t
  | .strUnparseable s => .error ("Unparseable Kalshi datetime: " ++ s)
  | .otherType => .error "Unsupported datetime type from Kalshi"

/-- Mirrors `kalshi_api._is_active`: a truthy `is_resolved` forces inactive,
else the lowercased status (empty when `None`) must be `trading`, `open` or
`active`. -/
def kalshi_is_active (status : Option String) (is_resolved : Option Bool) : Bool :=
  if is_resolved.getD false then false
  else
    let status_normalized := pyLower (status.getD "")
    status_normalized == "trading" || status_normalized == "open"
      || status_normalized == "active"

/-- Mirrors `kalshi_api._is_binary`, applied to the selected type tag
(`type` or `contract_type` chain) and the length of the selected outcome
iterable (`outcomes` or `contracts` chain; `none` when absent or not a
non-string iterable): an explicit lowercased "binary" tag wins, else exactly
two outcomes. -/
def kalshi_is_binary (type_tag : Option String) (outcomes_len : Option Nat) : Bool :=
  if type_tag.any (fun kind => pyLower kind == "binary") then true
  else
    match outcomes_len with
    | some n => n == 2
    | none => false

/-- Python `str(...)` of an optional string: `str(None)` is the literal
string "None". -/
def pyStr (o : Option String) : String := o.getD "None"

/-- The fields of a raw Kalshi market record that `_normalize_market` reads,
each one being the value its `or`-chain of alternative keys selected:
`close_raw` stands for the first truthy of
`close_time`/`closes_at`/`expiration_time`/`end_date`, `yes_raw` for the
first truthy of the four yes-price keys, `no_raw` likewise, `type_tag` for
`type`/`contract_type`, `outcomes_len` for the length of
`outcomes`/`contracts`. -/
structure KalshiRaw where
  status : Option String := none
  is_resolved : Option Bool := none
  close_raw : RawDatetime := .null
  yes_raw : RawPrice := .null
  no_raw : RawPrice := .null
  id : Option String := none
  ticker : Option String := none
  title : Option String := none
  name : Option String := none
  settlement_description : Option String := none
  underlying : Option String := none
  type_tag : Option String := none
  outcomes_len : Option Nat := none
deriving Repr, DecidableEq

/-- Mirrors `kalshi_api._normalize_market`: compute `is_active`, parse the
resolution time — an absent or unparsable one RAISES, propagating out of the
function — then extract prices, returning `None` (record skipped) when a
price leg is still missing, else build the `Market`. -/
def kalshi_normalize_market (r : KalshiRaw) : Except String (Option Market) := do
  let is_active := kalshi_is_active r.status r.is_resolved
  let resolution ← kalshi_parse_datetime r.close_raw
  let prices := extract_prices r.yes_raw r.no_raw
  match prices.1, prices.2 with
  | some yes_price, some no_price =>
      pure (some
        { platform := "kalshi",
          market_id := pyStr (pyOrStr r.id r.ticker),
          question := (pyOrStr r.title (pyOrStr r.name (some ""))).getD "",
          resolution_time := resolution,
          yes_price := yes_price,
          no_price := no_price,
          settlement_description := r.settlement_description,
          underlying_entity := pyOrStr r.underlying r.ticker,
          is_binary := kalshi_is_binary r.type_tag r.outcomes_len,
          is_active := is_active })
  | _, _ => pure none

/-- The per-record loop of `kalshi_api.fetch_open_binary_markets`: normalize
each raw record, skip `None` results and non-binary or inactive markets,
append the rest; an error raised by `_normalize_market` propagates and aborts
the whole fetch. -/
def kalshi_collect_step (markets : List Market) (raw : KalshiRaw) :
    Except String (List Market) := do
  match ← kalshi_normalize_market raw with
  | none => pure markets
  | some m =>
      if !m.is_binary then pure markets
      else if !m.is_active then pure markets
      else pure (markets ++ [m])

/-- The fetch loop itself, folding `kalshi_collect_step` over the raw
records. -/
def kalshi_collect (raws : List KalshiRaw) : Except String (List Market) :=
  raws.foldlM kalshi_collect_step []

/-- Mirrors `polymarket_api._parse_datetime`: same branches as the Kalshi
version, with Polymarket-tagged messages. -/
def poly_parse_datetime : RawDatetime → Except String Int
  | .null => .error "Polymarket market missing resolution time"
  | .numTs t => .ok t
  | .strParseable t => .ok t
  | .strUnparseable s => .error ("Unparseable Polymarket datetime: " ++ s)
  | .otherType => .error "Unsupported datetime type from Polymarket"

/-- The fields of a raw Polymarket market record that `_normalize_market`
reads, each after its `or`-chain selected a value: `outcomes` is the
`outcomes`/`outcomeNames` chain coerced to a list (`none` when absent or not
a non-string iterable), `prices` likewise for `outcomePrices`/`prices`,
`end_raw` for `endDate`/`closesAt`/`expiry`/`close_time`; `active` is the
`active` field when it is a `bool` (`isinstance` check), `none` otherwise. -/
structure PolyRaw where
  outcomes : Option (List String) := none
  prices : Option (List RawPrice) := none
  resolved : Option Bool := none
  closed : Option Bool := none
  state : Option String := none
  status : Option String := none
  active : Option Bool := none
  end_raw : RawDatetime := .null
  id : Option String := none
  slug : Option String := none
  question : Option String := none
  title : Option String := none
  description : Option String := none
  underlying : Option String := none
  collection : Option String := none
deriving Repr, DecidableEq

/-- Mirrors `polymarket_api._is_active`: a truthy `resolved` or `closed`
forces inactive; else a boolean `active` field wins when present; else the
lowercased `state`-or-`status` string must be `active`, `open` or `live`. -/
def poly_is_active (r : PolyRaw) : Bool :=
  if r.resolved.getD false || r.closed.getD false then false
  else
    let status := pyLower ((pyOrStr r.state r.status).getD "")
    match r.active with
    | some b => b
    | none => status == "active" || status == "open" || status == "live"

/-- Mirrors `polymarket_api._is_binary` on the coerced outcome list: exactly
two entries (a missing or non-iterable raw value was coerced to `[]`). -/
def poly_is_binary (outcomes : List String) : Bool := outcomes.length == 2

/-- Mirrors `polymarket_api._extract_binary_prices`: the yes leg is the first
outcome named yes/long/true (index 0 when none matches), the no leg the other
of the two indices; each leg is read if it exists, normalized, and a missing
leg is synthesized as `1 -` the other.  (`_normalize_market` calls this only
after `_is_binary` ensured exactly two outcomes, so the matched index is 0 or
1 and `1 - yes_index` is the complementary index.) -/
def poly_extract_binary_prices (outcomes : List String)
    (prices : List RawPrice) : Option ℚ × Option ℚ :=
  let yes_index :=
    (outcomes.findIdx? (fun outcome =>
      pyLower outcome == "yes" || pyLower outcome == "long"
        || pyLower outcome == "true")).getD 0
  let yes_price := (prices.get? yes_index).bind normalize_price
  let other_index := 1 - yes_index
  let no_price := (prices.get? other_index).bind normalize_price
  match yes_price, no_price with
  | none, some n => (some (1 - n), some n)
  | some y, none => (some y, some (1 - y))
  | y, n => (y, n)

/-- Mirrors `polymarket_api._normalize_market`: coerce outcomes and prices,
return `None` for a non-binary outcome shape, extract prices and return
`None` when a leg is still missing, then parse the end time — an absent or
unparsable one RAISES, propagating out — and build the `Market`. -/
def poly_normalize_market (r : PolyRaw) : Except String (Option Market) := do
  let outcomes := r.outcomes.getD []
  let prices := r.prices.getD []
  if !(poly_is_binary outcomes) then pure none
  else
    let extracted := poly_extract_binary_prices outcomes prices
    match extracted.1, extracted.2 with
    | some yes_price, some no_price => do
        let resolution ← poly_parse_datetime r.end_raw
        pure (some
          { platform := "polymarket",
            market_id := pyStr (pyOrStr r.id r.slug),
            question := (pyOrStr r.question (pyOrStr r.title (some ""))).getD "",
            resolution_time := resolution,
            yes_price := yes_price,
            no_price := no_price,
            settlement_description := r.description,
            underlying_entity :=
              pyOrStr r.underlying (pyOrStr r.collection r.slug),
            is_binary := true,
            is_active := poly_is_active r })
    | _, _ => pure none

instance {e a : Type} [DecidableEq e] [DecidableEq a] :
    DecidableEq (Except e a) := fun x y =>
  match x, y with
  | .ok v, .ok w =>
      if h : v = w then .isTrue (by rw [h])
      else .isFalse (by intro hc; cases hc; exact h rfl)
  | .error v, .error w =>
      if h : v = w then .isTrue (by rw [h])
      else .isFalse (by intro hc; cases hc; exact h rfl)
  | .ok _, .error _ => .isFalse (by intro hc; cases hc)
  | .error _, .ok _ => .isFalse (by intro hc; cases hc)

/-- Whether an `Except` computation finished without raising. -/
def isOkE {ε α : Type} : Except ε α → Bool
  | .ok _ => true
  | .error _ => false

/-- Claim C1 (code bug): `models.Market` documents `yes_price`/`no_price` as
lying in `[0, 1]`, but both venue normalizers can produce prices outside it:
a raw yes leg of `150` normalizes to `150 / 100 = 1.5 > 1`, and the
synthesized no leg `1 - 1.5 = -0.5 < 0`; the record is not rejected.  The
first two conjuncts evaluate the two normalizers at such a record; the last
two state that the produced prices violate the documented range on both
legs. -/
theorem normalize_price_out_of_range :
    ((kalshi_normalize_market
        { close_raw := .numTs 1700000000, yes_raw := .num 150,
          status := some "trading", type_tag := some "binary" }).map
        (Option.map (fun m => (m.yes_price, m.no_price)))
      = .ok (some ((3:ℚ)/2, (-1:ℚ)/2)))
    ∧ ((poly_normalize_market
        { outcomes := some ["Yes", "No"], prices := some [.num 150],
          end_raw := .numTs 1700000000, status := some "active" }).map
        (Option.map (fun m => (m.yes_price, m.no_price)))
      = .ok (some ((3:ℚ)/2, (-1:ℚ)/2)))
    ∧ ¬ ((3:ℚ)/2 ≤ 1) ∧ ¬ (0 ≤ (-1:ℚ)/2) := by
  have hv : (if (150:ℚ) > 1 then (150:ℚ)/100 else 150) = 3/2 := by
    rw [if_pos (by norm_num : (150:ℚ) > 1)]
    norm_num
  refine ⟨?_, ?_, by norm_num, by norm_num⟩
  · have step : (kalshi_normalize_market
        { close_raw := .numTs 1700000000, yes_raw := .num 150,
          status := some "trading", type_tag := some "binary" }).map
          (Option.map (fun m => (m.yes_price, m.no_price)))
        = .ok (some ((if (150:ℚ) > 1 then (150:ℚ)/100 else 150),
            1 - (if (150:ℚ) > 1 then (150:ℚ)/100 else 150))) := rfl
    rw [step, hv]
    norm_num
  · have step : (poly_normalize_market
        { outcomes := some ["Yes", "No"], prices := some [.num 150],
          end_raw := .numTs 1700000000, status := some "active" }).map
          (Option.map (fun m => (m.yes_price, m.no_price)))
        = .ok (some ((if (150:ℚ) > 1 then (150:ℚ)/100 else 150),
            1 - (if (150:ℚ) > 1 then (150:ℚ)/100 else 150))) := rfl
    rw [step, hv]
    norm_num

/-- Counterexample for claim C2: the claim says a record with an absent or
unparsable resolution time makes the normalizer return null so only that
record is skipped.  In fact `_normalize_market` lets `_parse_datetime`
raise: at a record with both price legs but no close time the result is a
raised `KalshiAPIError`, not `None`; and the whole fetch loop aborts,
losing the well-formed record before it. -/
theorem kalshi_missing_time_not_skipped :
    kalshi_normalize_market { yes_raw := .num (45/100), no_raw := .num (55/100) }
      = .error "Kalshi market missing close time"
    ∧ kalshi_collect
        [{ close_raw := .numTs 100, yes_raw := .num (40/100),
           no_raw := .num (60/100), status := some "trading",
           type_tag := some "binary" },
         { yes_raw := .num (45/100), no_raw := .num (55/100) }]
      = .error "Kalshi market missing close time" := by
  constructor <;> rfl

lemma kalshi_collect_step_error (acc : List Market) (raw : KalshiRaw)
    (h : isOkE (kalshi_normalize_market raw) = false) :
    isOkE (kalshi_collect_step acc raw) = false := by
  cases hno : kalshi_normalize_market raw with
  | error e =>
      unfold kalshi_collect_step
      rw [hno]
      rfl
  | ok m => rw [hno] at h; simp [isOkE] at h

lemma kalshi_foldlM_error :
    ∀ (raws : List KalshiRaw) (acc : List Market) (r : KalshiRaw),
      r ∈ raws → isOkE (kalshi_normalize_market r) = false →
      isOkE (raws.foldlM kalshi_collect_step acc) = false := by
  intro raws
  induction raws with
  | nil => intro acc r h; simp at h
  | cons x xs ih =>
      intro acc r hmem herr
      rw [List.foldlM_cons]
      rcases List.mem_cons.mp hmem with heq | hx
      · subst heq
        cases hstep : kalshi_collect_step acc r with
        | error e => rfl
        | ok acc2 =>
            have hbad := kalshi_collect_step_error acc r herr
            rw [hstep] at hbad
            simp [isOkE] at hbad
      · cases hstep : kalshi_collect_step acc x with
        | error e => rfl
        | ok acc2 => exact ih acc2 r hx herr

/-- Claim C2 amended: a record missing both price legs is skipped by
returning `None`, but a record whose resolution-time value is absent or
unparsable makes `_normalize_market` RAISE a `KalshiAPIError`
(`_parse_datetime` propagates), and the raised error aborts the whole fetch
loop — the run does not continue past it. -/
theorem kalshi_unparsable_time_aborts (raws : List KalshiRaw) (r : KalshiRaw)
    (hmem : r ∈ raws)
    (herr : isOkE (kalshi_parse_datetime r.close_raw) = false) :
    isOkE (kalshi_normalize_market r) = false
    ∧ isOkE (kalshi_collect raws) = false := by
  have hnorm : isOkE (kalshi_normalize_market r) = false := by
    cases hp : kalshi_parse_datetime r.close_raw with
    | error e =>
        unfold kalshi_normalize_market
        rw [hp]
        rfl
    | ok t => rw [hp] at herr; simp [isOkE] at herr
  exact ⟨hnorm, kalshi_foldlM_error raws [] r hmem hnorm⟩

/-- Witness for the amended C2 at a concrete record whose close-time string
does not parse. -/
theorem kalshi_unparsable_time_aborts_witness :
    isOkE (kalshi_normalize_market
        { close_raw := .strUnparseable "not-a-date",
          yes_raw := .num (45/100), no_raw := .num (55/100) }) = false
    ∧ isOkE (kalshi_collect
        [{ close_raw := .strUnparseable "not-a-date",
           yes_raw := .num (45/100), no_raw := .num (55/100) }]) = false :=
  kalshi_unparsable_time_aborts
    [{ close_raw := .strUnparseable "not-a-date",
       yes_raw := .num (45/100), no_raw := .num (55/100) }]
    { close_raw := .strUnparseable "not-a-date",
      yes_raw := .num (45/100), no_raw := .num (55/100) }
    (List.mem_singleton.mpr rfl) rfl

/-- The venue-independent activity rule exactly as the spec words it:
active iff not flagged resolved/closed AND (the `active` boolean field when
present, else the status string is one of trading, open, active, live). -/
def spec_is_active (resolved_or_closed : Bool) (active : Option Bool)
    (status : String) : Bool :=
  !resolved_or_closed
    && (match active with
        | some b => b
        | none =>
            pyLower status == "trading" || pyLower status == "open"
              || pyLower status == "active" || pyLower status == "live")

/-- Counterexample for claim C8: the unified rule matches neither venue.  A
Polymarket record with status "trading" (not resolved or closed, no boolean
`active` field) is active under the spec rule but inactive in the code,
whose `_is_active` accepts only active/open/live; a Kalshi record with status
"live" is active under the spec rule but inactive in the code, whose
`_is_active` accepts only trading/open/active and consults no `active`
boolean at all. -/
theorem is_active_rule_counterexample :
    (poly_is_active { status := some "trading" } = false
      ∧ spec_is_active false none "trading" = true)
    ∧ (kalshi_is_active (some "live") none = false
      ∧ spec_is_active false none "live" = true) := by
  exact ⟨⟨rfl, rfl⟩, ⟨rfl, rfl⟩⟩

/-- Claim C8 amended: the venues use different activity rules.  Kalshi:
active iff `is_resolved` is not truthy and the lowercased status is one of
trading/open/active — no `active` boolean is consulted and "live" is not
accepted.  Polymarket: active iff neither `resolved` nor `closed` is truthy
and (the boolean `active` field when present, else the lowercased
state-or-status is one of active/open/live) — "trading" is not accepted. -/
theorem is_active_amended :
    (∀ (status : Option String) (is_resolved : Option Bool),
        kalshi_is_active status is_resolved = true
          ↔ (is_resolved ≠ some true
              ∧ pyLower (status.getD "")
                  ∈ (["trading", "open", "active"] : List String)))
    ∧ (∀ r : PolyRaw,
        poly_is_active r = true
          ↔ (r.resolved ≠ some true ∧ r.closed ≠ some true
              ∧ (match r.active with
                  | some b => b = true
                  | none => pyLower ((pyOrStr r.state r.status).getD "")
                      ∈ (["active", "open", "live"] : List String)))) := by
  constructor
  · intro status is_resolved
    rcases is_resolved with _ | rb
    · simp [kalshi_is_active]
      tauto
    · cases rb
      · simp [kalshi_is_active]
        tauto
      · simp [kalshi_is_active]
  · intro r
    rcases r with ⟨o, pr, res, cl, st, stat, act, e, i, sl, q, t, de, un, co⟩
    rcases res with _ | rb <;> rcases cl with _ | cb <;> rcases act with _ | ab <;>
      (try cases rb) <;> (try cases cb) <;> (try cases ab) <;>
      simp [poly_is_active] <;> tauto

/-- The observable outcome of one attempt at the HTTP layer, as `_request_json`
distinguishes them: a response with a status code, or a raised
`httpx.RequestError`-family exception (timeout, connection reset). -/
inductive Attempt where
  | status (code : Nat)
  | requestFailure
deriving Repr, DecidableEq

/-- How a `_request_json` call ends. -/
inductive ReqOutcome where
  | success (attempt : Nat)
  | authFailure
  | rateLimited
  | fetchFailed
  | unexpectedFall
deriving Repr, DecidableEq

/-- The trace of one `_request_json` call: its outcome, the number of GET
attempts made, and the argument of each `time.sleep` in order. -/
structure ReqTrace where
  outcome : ReqOutcome
  attemptsMade : Nat
  sleeps : List Nat
deriving Repr, DecidableEq

/-- Mirrors the `for attempt in range(1, attempts + 1)` loop of
`kalshi_api._request_json` (`polymarket_api._request_json` is identical up
to the venue tag in the messages).  `fuel` is the number of loop iterations
left (`attempts - attempt + 1`), so `fuel` hitting `1` marks the final
attempt (`attempt == attempts`), where a 429 and a caught transport error
are raised instead of retried.  A 401/403 raises the venue auth error at
once: the raised `APIError` is not an `httpx` error, so the `except` clause
does not catch it and no retry happens.  Statuses below 400 pass
`raise_for_status` and return; other statuses raise `HTTPStatusError`,
which is caught and retried like a transport error.  `fuel = 0` is the
fall-through `raise` after the loop, unreachable from `request_json`. -/
def request_loop (responses : Nat → Attempt) :
    Nat → Nat → List Nat → ReqTrace
  | 0, attempt, sleeps =>
      { outcome := .unexpectedFall, attemptsMade := attempt - 1,
        sleeps := sleeps }
  | fuel + 1, attempt, sleeps =>
      match responses attempt with
      | .status code =>
          if code == 401 || code == 403 then
            { outcome := .authFailure, attemptsMade := attempt,
              sleeps := sleeps }
          else if code == 429 then
            if fuel == 0 then
              { outcome := .rateLimited, attemptsMade := attempt,
                sleeps := sleeps }
            else request_loop responses fuel (attempt + 1) (sleeps ++ [attempt])
          else if code < 400 then
            { outcome := .success attempt, attemptsMade := attempt,
              sleeps := sleeps }
          else
            if fuel == 0 then
              { outcome := .fetchFailed, attemptsMade := attempt,
                sleeps := sleeps }
            else request_loop responses fuel (attempt + 1) (sleeps ++ [attempt])
      | .requestFailure =>
          if fuel == 0 then
            { outcome := .fetchFailed, attemptsMade := attempt,
              sleeps := sleeps }
          else request_loop responses fuel (attempt + 1) (sleeps ++ [attempt])

/-- The whole `_request_json` call: `attempts = 3`, starting at attempt 1 with no
sleeps yet. -/
def request_json (responses : Nat → Attempt) : ReqTrace :=
  request_loop responses 3 1 []

lemma request_loop_bounds (responses : Nat → Attempt) :
    ∀ (fuel attempt : Nat) (sleeps : List Nat), 1 ≤ fuel →
      attempt ≤ (request_loop responses fuel attempt sleeps).attemptsMade
      ∧ (request_loop responses fuel attempt sleeps).attemptsMade
          ≤ attempt + fuel - 1
      ∧ (request_loop responses fuel attempt sleeps).sleeps
          = sleeps ++ List.range' attempt
              ((request_loop responses fuel attempt sleeps).attemptsMade
                - attempt) := by
  intro fuel
  induction fuel with
  | zero => intro attempt sleeps h; exact absurd h (by omega)
  | succ f ih =>
      intro attempt sleeps _
      have hrec :
          ∀ (hf : 1 ≤ f),
            request_loop responses f (attempt + 1) (sleeps ++ [attempt])
                = request_loop responses f (attempt + 1) (sleeps ++ [attempt])
              → attempt
                  ≤ (request_loop responses f (attempt + 1)
                      (sleeps ++ [attempt])).attemptsMade
                ∧ (request_loop responses f (attempt + 1)
                      (sleeps ++ [attempt])).attemptsMade
                    ≤ attempt + (f + 1) - 1
                ∧ (request_loop responses f (attempt + 1)
                      (sleeps ++ [attempt])).sleeps
                    = sleeps ++ List.range' attempt
                        ((request_loop responses f (attempt + 1)
                            (sleeps ++ [attempt])).attemptsMade - attempt) := by
        intro hf _
        obtain ⟨h1, h2, h3⟩ := ih (attempt + 1) (sleeps ++ [attempt]) hf
        refine ⟨by omega, by omega, ?_⟩
        rw [h3, List.append_assoc]
        congr 1
        have hn : (request_loop responses f (attempt + 1)
            (sleeps ++ [attempt])).attemptsMade - attempt
          = ((request_loop responses f (attempt + 1)
              (sleeps ++ [attempt])).attemptsMade - (attempt + 1)) + 1 := by
          omega
        rw [hn, List.range'_succ]
        rfl
      show attempt ≤ (request_loop responses (f + 1) attempt sleeps).attemptsMade
        ∧ _ ∧ _
      cases hr : responses attempt with
      | status code =>
          by_cases h401 : (code == 401 || code == 403) = true
          · simp [request_loop, hr, h401]
          · by_cases h429 : (code == 429) = true
            · by_cases hlast : (f == 0) = true
              · simp [request_loop, hr, h401, h429, hlast]
              · have hf : 1 ≤ f := by
                  simp at hlast
                  omega
                have hres := hrec hf rfl
                simp only [request_loop, hr, h401, h429, hlast,
                  Bool.false_eq_true, if_false, if_true]
                simpa using hres
            · by_cases hlt : code < 400
              · simp [request_loop, hr, h401, h429, hlt]
              · by_cases hlast : (f == 0) = true
                · simp [request_loop, hr, h401, h429, hlt, hlast]
                · have hf : 1 ≤ f := by
                    simp at hlast
                    omega
                  have hres := hrec hf rfl
                  simp only [request_loop, hr, h401, h429, hlt, hlast,
                    Bool.false_eq_true, if_false, if_true]
                  simpa using hres
      | requestFailure =>
          by_cases hlast : (f == 0) = true
          · simp [request_loop, hr, hlast]
          · have hf : 1 ≤ f := by
              simp at hlast
              omega
            have hres := hrec hf rfl
            simp only [request_loop, hr, hlast, Bool.false_eq_true,
              if_false, if_true]
            simpa using hres

/-- Claim C6: per `_request_json` call at most 3 GET attempts are made, and
each `time.sleep` between retried attempts waits for the number of the
attempt that just failed, so the sleep arguments are exactly
`[1, ..., attemptsMade - 1]`; three consecutive 429 responses end in the
venue rate-limit error after exactly 3 attempts, having slept 1 then 2; and
a 401 or 403 response raises the authentication error at once with no
further attempt — including mid-retry (last conjunct: a 429 then a 401
stops at attempt 2 with the single sleep from attempt 1). -/
theorem request_json_spec :
    (∀ responses : Nat → Attempt,
        1 ≤ (request_json responses).attemptsMade
        ∧ (request_json responses).attemptsMade ≤ 3
        ∧ (request_json responses).sleeps
            = List.range' 1 ((request_json responses).attemptsMade - 1))
    ∧ request_json (fun _ => Attempt.status 429)
        = { outcome := .rateLimited, attemptsMade := 3, sleeps := [1, 2] }
    ∧ (∀ responses : Nat → Attempt,
        request_json
            (fun n => if n == 1 then Attempt.status 401 else responses n)
          = { outcome := .authFailure, attemptsMade := 1, sleeps := [] })
    ∧ (∀ responses : Nat → Attempt,
        request_json
            (fun n => if n == 1 then Attempt.status 403 else responses n)
          = { outcome := .authFailure, attemptsMade := 1, sleeps := [] })
    ∧ (∀ responses : Nat → Attempt,
        request_json
            (fun n =>
              if n == 1 then Attempt.status 429
              else if n == 2 then Attempt.status 401 else responses n)
          = { outcome := .authFailure, attemptsMade := 2, sleeps := [1] }) := by
  refine ⟨?_, rfl, ?_, ?_, ?_⟩
  · intro responses
    obtain ⟨h1, h2, h3⟩ := request_loop_bounds responses 3 1 [] (by omega)
    simp only [request_json]
    exact ⟨h1, by omega, by simpa using h3⟩
  · intro responses
    rfl
  · intro responses
    rfl
  · intro responses
    rfl
